import Mathlib

/-!
Verification of the single-file Rust HTTP helper (src/main.rs): a loopback
server that routes minimal HTTP requests, extracts a command field from a
JSON-shaped body, runs it through an external interpreter and reports the
captured output.

The embedding below is a shallow one:

* Rust strings are `List Char`; byte lengths are recovered with `utf8Len`
  (Rust str::len is the UTF-8 byte count).  `String::from_utf8_lossy` is the
  identity on this representation, so the body decode step disappears.
* the TCP stream is `Stream`: the characters still to be delivered plus a
  flag telling whether reads past the end fail (I/O error) or report
  end-of-file.  `readLine` models `BufRead::read_line` (at end-of-file it
  returns the partial line with Ok, an I/O failure returns Err) and
  `readExact` models `Read::read_exact` (which errs both on failure and on a
  premature end of stream).
* filesystem and child-process outcomes are inputs, collected in `Env`;
  the side effects the handler performs are reported in `Effects`.
* Rust panics (out-of-range string slices) are `Except.error`; every
  non-panicking path of `handle_connection` yields `.ok` carrying the
  status/body pair handed to `send_response` plus the effect record.
* `str::trim` is modelled with ASCII whitespace and `str::to_lowercase`
  char-wise; the requests at hand only ever contain ASCII.
-/

namespace FPB

/-- ASCII whitespace, modelling the characters `str::trim` removes here. -/
def isWs (c : Char) : Bool := c = ' ' || c = '\t' || c = '\n' || c = '\r'

/-- Model of trimming leading whitespace. -/
def trimStart (l : List Char) : List Char := l.dropWhile isWs

/-- Model of trimming trailing whitespace. -/
def trimEnd (l : List Char) : List Char := (l.reverse.dropWhile isWs).reverse

/-- Model of `str::trim`. -/
def trim (l : List Char) : List Char := trimEnd (trimStart l)

/-- Char-wise model of `str::to_lowercase`. -/
def lowerChars (l : List Char) : List Char := l.map Char.toLower

/-- ASCII digit test: the digits accepted by `usize::from_str`. -/
def isDigitC (c : Char) : Bool := 48 ≤ c.toNat && c.toNat ≤ 57

/-- Decimal value of a digit string, most significant first. -/
def digitsVal (l : List Char) : Nat := l.foldl (fun a c => a * 10 + (c.toNat - 48)) 0

/-- usize::MAX on the 64-bit targets the helper is built for. -/
def USIZE_MAX : Nat := 18446744073709551615

/-- Model of `str::parse::<usize>`: an optional leading plus sign, then a
non-empty run of ASCII digits whose value fits in usize. -/
def parseUsize (s : List Char) : Option Nat :=
  let t := if s.head? = some '+' then s.tail else s
  if t ≠ [] ∧ t.all isDigitC then
    if digitsVal t ≤ USIZE_MAX then some (digitsVal t) else none
  else none

/-- Model of the slice `&s[1..s.len()-1]` for a string whose first and last
characters are one byte wide. -/
def chopEnds (l : List Char) : List Char := (l.drop 1).dropLast

/-- Everything after the first colon, combining `s.find(':')` with the slice
`&s[value_start..]` of src/main.rs line 234-235; `none` when no colon. -/
def findAfterColon : List Char → Option (List Char)
  | [] => none
  | c :: rest => if c = ':' then some rest else findAfterColon rest

/-- The literal key `"command":` checked at src/main.rs line 231. -/
def cmdKey : List Char := "\x22command\x22:".data

/-- Model of `extract_command` (src/main.rs lines 225-241).  The `.error`
case models the panic of the slice `&value[1..value.len()-1]` when `value`
is the single character `"` (byte range 1..0 is out of order). -/
def extract_command (body : List Char) : Except (List Char) (Option (List Char)) :=
  let trimmed := trim body
  if trimmed.head? = some '{' ∧ trimmed.getLast? = some '}' then
    let inner := chopEnds trimmed
    if cmdKey.isPrefixOf (trim inner) then
      match findAfterColon inner with
      | none => .ok none
      | some afterColon =>
        let value := trim afterColon
        if value.head? = some '"' ∧ value.getLast? = some '"' then
          if value.length < 2 then
            .error "slice index starts at 1 but ends at 0".data
          else
            .ok (some (chopEnds value))
        else
          .ok (some value)
    else .ok none
  else .ok none

/-- The connection's incoming byte stream: the characters still available,
and whether exhausting them hits an I/O error (`errAfter = true`) or a clean
end-of-file (`errAfter = false`). -/
structure Stream where
  data : List Char
  errAfter : Bool
deriving DecidableEq

/-- Splits off the first line, up to and including the newline; `none` when
the data holds no newline. -/
def lineSpan : List Char → Option (List Char × List Char)
  | [] => none
  | c :: rest =>
    if c = '\n' then some ([c], rest)
    else
      match lineSpan rest with
      | some (l, r) => some (c :: l, r)
      | none => none

/-- Model of `BufRead::read_line`: at end-of-file the partial line is
returned with Ok, while an I/O failure yields Err. -/
def readLine (s : Stream) : Except Unit (List Char × Stream) :=
  match lineSpan s.data with
  | some (l, rest) => .ok (l, ⟨rest, s.errAfter⟩)
  | none => if s.errAfter then .error () else .ok (s.data, ⟨[], false⟩)

/-- Model of `Read::read_exact n`: errs when fewer than `n` characters can be
delivered, whether through an I/O failure or a premature end of stream. -/
def readExact (n : Nat) (s : Stream) : Except Unit (List Char × Stream) :=
  if n ≤ s.data.length then .ok (s.data.take n, ⟨s.data.drop n, s.errAfter⟩)
  else .error ()

/-- The lowercased header prefix compared at src/main.rs line 88. -/
def clKey : List Char := "content-length:".data

/-- Everything up to (excluding) the next colon: together with
`findAfterColon` this models `line.split(':').nth(1)`. -/
def untilColon : List Char → List Char
  | [] => []
  | c :: rest => if c = ':' then [] else c :: untilColon rest

/-- Model of `line.split(':').nth(1).unwrap().trim().parse::<usize>().unwrap_or(0)`
(src/main.rs line 89).  The `none` branch models the `unwrap`; it is
unreachable where the function is used, because the guard of line 88 only
lets through lines whose char-wise lowercasing starts with
`content-length:`, which forces a colon to occur in the line. -/
def parseCLVal (line : List Char) : Nat :=
  match findAfterColon line with
  | none => 0
  | some rest => (parseUsize (trim (untilColon rest))).getD 0

/-- The header loop of src/main.rs lines 78-93, fused with the line reading
so that the recursion is structural on the stream data.  `acc` is the part
of the current line read so far, `cl` the current content-length value.
Reading a line that trims to nothing ends the loop; a line whose char-wise
lowercasing starts with `content-length:` replaces `cl`; at end-of-file the
pending partial line is processed (read_line reports it with Ok) and the
following read delivers an empty line, ending the loop. -/
def rhAux : List Char → Bool → List Char → Nat → Except Unit (Nat × Stream)
  | [], errAfter, acc, cl =>
    if errAfter then .error ()
    else if trim acc = [] then .ok (cl, ⟨[], false⟩)
    else .ok ((if clKey.isPrefixOf (lowerChars acc) then parseCLVal acc else cl), ⟨[], false⟩)
  | c :: rest, errAfter, acc, cl =>
    if c = '\n' then
      let line := acc ++ ['\n']
      if trim line = [] then .ok (cl, ⟨rest, errAfter⟩)
      else rhAux rest errAfter []
        (if clKey.isPrefixOf (lowerChars line) then parseCLVal line else cl)
    else rhAux rest errAfter (acc ++ [c]) cl

/-- The header-reading phase: runs the loop of src/main.rs lines 78-93 on the
stream, returning the final content-length and the remaining stream, or an
error when a line read fails. -/
def readHeaders (s : Stream) (cl : Nat) : Except Unit (Nat × Stream) :=
  rhAux s.data s.errAfter [] cl

/-- Captured outcome of a successfully launched interpreter process, with
the exit code the source never looks at. -/
structure ProcOut where
  exitCode : Int
  stdout : List Char
  stderr : List Char
deriving DecidableEq

/-- Environment outcomes consumed by one request: the results of
`fs::create_dir_all`, `File::create`, `write_all` and `Command::output`
(error payloads are the error display texts). -/
structure Env where
  createDir : Except (List Char) Unit
  createFile : Except (List Char) Unit
  writeAll : Except (List Char) Unit
  runPython : Except (List Char) ProcOut

/-- Side effects performed while handling one request. -/
structure Effects where
  dirCreated : Bool
  fileCreated : Bool
  scriptWritten : Option (List Char)
  procLaunched : Bool
deriving DecidableEq

/-- No side effect performed. -/
def noEffects : Effects := ⟨false, false, none, false⟩

/-- Outcome of one handled connection: the status/body pair handed to
`send_response`, and the effects performed. -/
structure HResult where
  response : Nat × List Char
  effects : Effects
deriving DecidableEq

/-- Model of the `match output` of src/main.rs lines 163-179: the status and
body built from the `Command::output` result. -/
def pythonResponse (r : Except (List Char) ProcOut) : Nat × List Char :=
  match r with
  | .ok out =>
    if out.stderr ≠ [] then
      (200, "Error: ".data ++ out.stderr ++ "\nOutput: ".data ++ out.stdout)
    else
      (200, out.stdout)
  | .error e => (500, "Failed to execute python: ".data ++ e)

/-- The static page served for `GET /` (src/main.rs lines 56-66). -/
def htmlPage : List Char :=
  ("<!DOCTYPE html>\n<html lang=\"en\">\n<head>\n    <meta charset=\"UTF-8\">\n    "
    ++ "<meta name=\"viewport\" content=\"width=device-width, initial-scale=1.0\">\n    "
    ++ "<title>Flurion\x27s Python Bindings for MinePy mod</title>\n</head>\n<body>\n    "
    ++ "<h1>Helper is running.</h1>\n</body>\n</html>").data

/-- The request-line prefix of the GET route (src/main.rs line 55). -/
def getKey : List Char := "GET / HTTP/1.1".data

/-- The request-line prefix of the POST route (src/main.rs line 71). -/
def postKey : List Char := "POST /api/interpreter HTTP/1.1".data

/-- The 500 body used by every internal-error response. -/
def iseText : List Char := "Internal Server Error".data

/-- Model of src/main.rs lines 78-183: header reading, body reading, command
extraction, the filesystem steps and the interpreter invocation of the POST
route.  A `.error` result is a panic escaping `extract_command`. -/
def interpreterPipeline (s1 : Stream) (env : Env) : Except (List Char) HResult :=
  match readHeaders s1 0 with
  | .error _ => .ok ⟨(500, iseText), noEffects⟩
  | .ok (content_length, s2) =>
    if content_length > 0 then
      match readExact content_length s2 with
      | .error _ => .ok ⟨(500, iseText), noEffects⟩
      | .ok (buffer, _) =>
        match extract_command buffer with
        | .error msg => .error msg
        | .ok none => .ok ⟨(400, "Bad Request: Invalid JSON".data), noEffects⟩
        | .ok (some command) =>
          match env.createDir with
          | .error _ => .ok ⟨(500, iseText), noEffects⟩
          | .ok _ =>
            match env.createFile with
            | .error _ => .ok ⟨(500, iseText), ⟨true, false, none, false⟩⟩
            | .ok _ =>
              match env.writeAll with
              | .error _ => .ok ⟨(500, iseText), ⟨true, true, none, false⟩⟩
              | .ok _ =>
                .ok ⟨pythonResponse env.runPython, ⟨true, true, some command, true⟩⟩
    else
      .ok ⟨(400, "Bad Request: Missing body".data), noEffects⟩

/-- Model of `handle_connection` (src/main.rs lines 38-184): read and trim
the request line, route on its prefix, and run the interpreter pipeline for
the POST route. -/
def handle_connection (s : Stream) (env : Env) : Except (List Char) HResult :=
  match readLine s with
  | .error _ => .ok ⟨(500, iseText), noEffects⟩
  | .ok (line, s1) =>
    let request_line := trim line
    if getKey.isPrefixOf request_line then
      .ok ⟨(200, htmlPage), noEffects⟩
    else if postKey.isPrefixOf request_line then
      interpreterPipeline s1 env
    else
      .ok ⟨(404, "Not Found".data), noEffects⟩

/-- Reason-phrase table of `send_response` (src/main.rs lines 187-195). -/
def statusText (status : Nat) : List Char :=
  if status = 200 then "OK".data
  else if status = 500 then "Internal Server Error".data
  else if status = 404 then "Not Found".data
  else "Bad Request".data

/-- The ASCII digit character of value `d`. -/
def digitChar (d : Nat) : Char := Char.ofNat (48 + d)

/-- Decimal digits of `n`, accumulator style; the fuel is always sufficient
at the call in `natDigits`. -/
def natDigitsAux : Nat → Nat → List Char → List Char
  | 0, _, acc => acc
  | fuel + 1, n, acc =>
    if n < 10 then digitChar n :: acc
    else natDigitsAux fuel (n / 10) (digitChar (n % 10) :: acc)

/-- Decimal rendering of `n`, modelling the `Display` formatting used by
`format!` in src/main.rs. -/
def natDigits (n : Nat) : List Char := natDigitsAux (n + 1) n []

/-- UTF-8 byte length of a character list: Rust `str::len`. -/
def utf8Len (l : List Char) : Nat := (l.map Char.utf8Size).sum

/-- The doctype marker searched for at src/main.rs line 197. -/
def doctypeMarker : List Char := "<!DOCTYPE html".data

/-- Model of `str::contains` for a literal pattern: the pattern occurs as a
contiguous run somewhere in the list. -/
def hasInfix (pat : List Char) : List Char → Bool
  | [] => pat.isEmpty
  | c :: rest => pat.isPrefixOf (c :: rest) || hasInfix pat rest

/-- The content-type header line chosen at src/main.rs lines 197-201. -/
def contentTypeLine (status : Nat) (body : List Char) : List Char :=
  if status = 200 ∧ hasInfix doctypeMarker body then
    "Content-Type: text/html\r\n".data
  else
    "Content-Type: text/plain\r\n".data

/-- The status line built at src/main.rs line 196. -/
def statusLine (status : Nat) : List Char :=
  "HTTP/1.1 ".data ++ natDigits status ++ [' '] ++ statusText status ++ "\r\n".data

/-- The Content-Length header line built at src/main.rs line 202. -/
def contentLengthLine (body : List Char) : List Char :=
  "Content-Length: ".data ++ natDigits (utf8Len body) ++ "\r\n".data

/-- The four `write_all` payloads of src/main.rs lines 205-220, in order:
status line, Content-Length header, content-type header plus blank line,
body. -/
def sendWrites (status : Nat) (body : List Char) : List (List Char) :=
  [statusLine status, contentLengthLine body,
   contentTypeLine status body ++ "\r\n".data, body]

/-- The full message `send_response` puts on the wire. -/
def send_response (status : Nat) (body : List Char) : List Char :=
  (sendWrites status body).foldr (· ++ ·) []

/-! ### Digit lemmas: the decimal rendering parses back to the value -/

lemma digitChar_isDigit {d : Nat} (h : d < 10) : isDigitC (digitChar d) = true := by
  interval_cases d <;> decide

lemma digitChar_toNat {d : Nat} (h : d < 10) : (digitChar d).toNat = 48 + d := by
  interval_cases d <;> decide

lemma natDigitsAux_all (fuel : Nat) :
    ∀ n acc, n < fuel → (∀ c ∈ acc, isDigitC c = true) →
      ∀ c ∈ natDigitsAux fuel n acc, isDigitC c = true := by
  induction fuel with
  | zero => intro n acc h; omega
  | succ fuel ih =>
    intro n acc h hacc c
    rw [natDigitsAux]
    by_cases h10 : n < 10
    · rw [if_pos h10]
      intro hc
      rcases List.mem_cons.mp hc with rfl | hmem
      · exact digitChar_isDigit h10
      · exact hacc c hmem
    · rw [if_neg h10]
      refine ih (n / 10) (digitChar (n % 10) :: acc) ?_ ?_ c
      · exact lt_of_lt_of_le (Nat.div_lt_self (by omega) (by omega)) (by omega)
      · intro c' hc'
        rcases List.mem_cons.mp hc' with rfl | hmem
        · exact digitChar_isDigit (Nat.mod_lt n (by omega))
        · exact hacc c' hmem

lemma natDigitsAux_ne_nil (fuel : Nat) :
    ∀ n acc, n < fuel → natDigitsAux fuel n acc ≠ [] := by
  induction fuel with
  | zero => intro n acc h; omega
  | succ fuel ih =>
    intro n acc h
    rw [natDigitsAux]
    by_cases h10 : n < 10
    · rw [if_pos h10]; exact List.cons_ne_nil _ _
    · rw [if_neg h10]
      exact ih (n / 10) _ (lt_of_lt_of_le (Nat.div_lt_self (by omega) (by omega)) (by omega))

lemma natDigitsAux_val (fuel : Nat) :
    ∀ n acc, n < fuel →
      digitsVal (natDigitsAux fuel n acc) =
        acc.foldl (fun a c => a * 10 + (c.toNat - 48)) n := by
  induction fuel with
  | zero => intro n acc h; omega
  | succ fuel ih =>
    intro n acc h
    rw [natDigitsAux]
    by_cases h10 : n < 10
    · rw [if_pos h10]
      show List.foldl _ 0 (digitChar n :: acc) = _
      rw [List.foldl_cons, digitChar_toNat h10]
      norm_num
    · rw [if_neg h10]
      rw [ih (n / 10) _ (lt_of_lt_of_le (Nat.div_lt_self (by omega) (by omega)) (by omega))]
      rw [List.foldl_cons, digitChar_toNat (Nat.mod_lt n (by omega))]
      have : n / 10 * 10 + (48 + n % 10 - 48) = n := by omega
      rw [this]

lemma digitsVal_natDigits (n : Nat) : digitsVal (natDigits n) = n := by
  rw [natDigits, natDigitsAux_val (n + 1) n [] (by omega)]
  rfl

lemma natDigits_all (n : Nat) : ∀ c ∈ natDigits n, isDigitC c = true :=
  natDigitsAux_all (n + 1) n [] (by omega) (by intro c hc; simp at hc)

lemma natDigits_ne_nil (n : Nat) : natDigits n ≠ [] :=
  natDigitsAux_ne_nil (n + 1) n [] (by omega)

lemma parseUsize_natDigits {n : Nat} (h : n ≤ USIZE_MAX) :
    parseUsize (natDigits n) = some n := by
  obtain ⟨d, rest, hd⟩ : ∃ d rest, natDigits n = d :: rest := by
    cases hl : natDigits n with
    | nil => exact absurd hl (natDigits_ne_nil n)
    | cons d rest => exact ⟨d, rest, rfl⟩
  have hdig : isDigitC d = true := natDigits_all n d (hd ▸ List.mem_cons_self d rest)
  have hplus : d ≠ '+' := by
    intro heq
    rw [heq] at hdig
    exact absurd hdig (by decide)
  rw [parseUsize, hd]
  have hhead : (d :: rest).head? ≠ some '+' := by
    simp only [List.head?]
    intro hc
    exact hplus (Option.some.inj hc)
  rw [if_neg hhead]
  have hall : (d :: rest).all isDigitC = true := by
    rw [List.all_eq_true]
    intro c hc
    exact natDigits_all n c (hd ▸ hc)
  rw [if_pos ⟨List.cons_ne_nil d rest, hall⟩]
  have hv : digitsVal (d :: rest) = n := hd ▸ digitsVal_natDigits n
  rw [hv, if_pos h]

/-! ### Basic facts about the routing prefixes -/

lemma isPrefixOf_head {p l : List Char} (hp : p.isPrefixOf l = true)
    {c : Char} (hc : p.head? = some c) : l.head? = some c := by
  cases p with
  | nil => simp at hc
  | cons a as =>
    cases l with
    | nil => simp [List.isPrefixOf] at hp
    | cons b bs =>
      rw [List.isPrefixOf, Bool.and_eq_true, beq_iff_eq] at hp
      simp only [List.head?] at hc ⊢
      rw [← hp.1]
      exact hc

lemma post_not_get {l : List Char} (h : postKey.isPrefixOf l = true) :
    getKey.isPrefixOf l = false := by
  cases hg : getKey.isPrefixOf l with
  | false => rfl
  | true =>
    have h1 : l.head? = some 'P' := isPrefixOf_head h rfl
    have h2 : l.head? = some 'G' := isPrefixOf_head hg rfl
    rw [h1] at h2
    exact absurd (Option.some.inj h2) (by decide)

/-! ### Claim C2 -/

/-- C2: the claim that `extract_command` is total fails on the code: on the
body consisting of an open brace, the quoted key, a colon, a space, a lone
double quote and the closing brace, the extractor reaches the slice
`&value[1..value.len()-1]` with `value` the one-byte string `"`, and the
out-of-order byte range 1..0 makes the slice panic instead of returning the
no-command result. -/
theorem c2_extract_command_panics :
    extract_command "\x7b\x22command\x22: \x22\x7d".data =
      .error "slice index starts at 1 but ends at 0".data := by
  rfl

/-! ### Claim C4 -/

/-- C4: when the interpreter process fails to launch the response is 500 and
the body carries the launch error text; when it launches with non-empty
captured standard error the response is 200 with body
`Error: stderr\nOutput: stdout`; when standard error is empty the response
is 200 with the standard output verbatim; and the exit code is never
inspected (the response is unchanged under any change of exit code). -/
theorem c4_execution_result (e : List Char) (out : ProcOut) (c : Int) :
    pythonResponse (.error e) = (500, "Failed to execute python: ".data ++ e) ∧
    (out.stderr ≠ [] →
      pythonResponse (.ok out) =
        (200, "Error: ".data ++ out.stderr ++ "\nOutput: ".data ++ out.stdout)) ∧
    (out.stderr = [] → pythonResponse (.ok out) = (200, out.stdout)) ∧
    pythonResponse (.ok ⟨c, out.stdout, out.stderr⟩) = pythonResponse (.ok out) := by
  refine ⟨rfl, ?_, ?_, rfl⟩
  · intro h
    simp [pythonResponse, h]
  · intro h
    simp [pythonResponse, h]

/-- Witness for C4 at concrete outcomes: empty stderr echoes stdout, a
non-empty stderr produces the prefixed concatenation, and a launch failure
is a 500 carrying the error text. -/
theorem c4_execution_result_witness :
    pythonResponse (.ok ⟨0, "2\n".data, []⟩) = (200, "2\n".data) ∧
    pythonResponse (.ok ⟨1, "o".data, "boom".data⟩) =
      (200, "Error: ".data ++ "boom".data ++ "\nOutput: ".data ++ "o".data) ∧
    pythonResponse (.error "no such file".data) =
      (500, "Failed to execute python: ".data ++ "no such file".data) :=
  ⟨(c4_execution_result [] ⟨0, "2\n".data, []⟩ 0).2.2.1 rfl,
   (c4_execution_result [] ⟨1, "o".data, "boom".data⟩ 1).2.1 (by decide),
   (c4_execution_result "no such file".data ⟨0, [], []⟩ 0).1⟩

/-! ### Claim C9 -/

/-- C9: `send_response` maps 200 to OK, 400 to Bad Request, 404 to Not
Found, 500 to Internal Server Error and every other status to Bad Request's
phrase, and emits the text/html content type exactly when the status is 200
and the body contains the doctype marker, text/plain otherwise. -/
theorem c9_status_and_content_type (status : Nat) (body : List Char) :
    (status = 200 → statusText status = "OK".data) ∧
    (status = 400 → statusText status = "Bad Request".data) ∧
    (status = 404 → statusText status = "Not Found".data) ∧
    (status = 500 → statusText status = "Internal Server Error".data) ∧
    (status ≠ 200 → status ≠ 404 → status ≠ 500 →
      statusText status = "Bad Request".data) ∧
    (contentTypeLine status body = "Content-Type: text/html\r\n".data ↔
      status = 200 ∧ hasInfix doctypeMarker body = true) ∧
    (¬(status = 200 ∧ hasInfix doctypeMarker body = true) →
      contentTypeLine status body = "Content-Type: text/plain\r\n".data) := by
  refine ⟨?_, ?_, ?_, ?_, ?_, ?_, ?_⟩
  · intro h; subst h; rfl
  · intro h; subst h; rfl
  · intro h; subst h; rfl
  · intro h; subst h; rfl
  · intro h1 h2 h3
    simp [statusText, h1, h2, h3]
  · rw [contentTypeLine]
    split_ifs with hc
    · simp [hc]
    · simp only [hc, iff_false]
      intro heq
      exact absurd heq (by decide)
  · intro hc
    rw [contentTypeLine, if_neg hc]

/-- Witness for C9 at concrete statuses and bodies: 200 is OK, 418 falls
back to Bad Request, the static page gets text/html and a plain 404 body
gets text/plain. -/
theorem c9_status_and_content_type_witness :
    statusText 200 = "OK".data ∧
    statusText 418 = "Bad Request".data ∧
    contentTypeLine 200 htmlPage = "Content-Type: text/html\r\n".data ∧
    contentTypeLine 404 "Not Found".data = "Content-Type: text/plain\r\n".data :=
  ⟨(c9_status_and_content_type 200 []).1 rfl,
   (c9_status_and_content_type 418 []).2.2.2.2.1 (by decide) (by decide) (by decide),
   (c9_status_and_content_type 200 htmlPage).2.2.2.2.2.1.mpr ⟨rfl, by decide⟩,
   (c9_status_and_content_type 404 "Not Found".data).2.2.2.2.2.2 (by decide)⟩

/-! ### Claim C8 -/

/-- C8: the message `send_response` emits is, in order, the status line, the
Content-Length header, the content-type header, a blank line and the body;
the Content-Length digits are exactly the decimal rendering of the body's
UTF-8 byte length, and they parse back to that byte length. -/
theorem c8_content_length (status : Nat) (body : List Char)
    (h : utf8Len body ≤ USIZE_MAX) :
    send_response status body =
      statusLine status ++
        ("Content-Length: ".data ++ natDigits (utf8Len body) ++ "\r\n".data) ++
        (contentTypeLine status body ++ "\r\n".data) ++ body ∧
    parseUsize (natDigits (utf8Len body)) = some (utf8Len body) := by
  constructor
  · simp [send_response, sendWrites, contentLengthLine]
  · exact parseUsize_natDigits h

/-! ### Concrete connections used by witnesses and counterexamples -/

/-- An environment in which every filesystem step and the process launch
succeed; the process exits with code 0, empty output, empty error. -/
def envOk : Env := ⟨.ok (), .ok (), .ok (), .ok ⟨0, [], []⟩⟩

/-- A POST request whose declared content length is zero. -/
def postStream0 : Stream :=
  ⟨"POST /api/interpreter HTTP/1.1\r\nContent-Length: 0\r\n\r\n".data, false⟩

/-- The request line delivered by `postStream0`. -/
def postLine : List Char := "POST /api/interpreter HTTP/1.1\r\n".data

/-- What remains of `postStream0` after its request line. -/
def hdrStream0 : Stream := ⟨"Content-Length: 0\r\n\r\n".data, false⟩

/-- An exhausted stream whose further reads report end-of-file. -/
def emptyStream : Stream := ⟨[], false⟩

/-- The 400 outcome of a POST with no declared body. -/
def r400 : HResult := ⟨(400, "Bad Request: Missing body".data), noEffects⟩

/-- The status `pythonResponse` reports is always 200 or 500. -/
lemma pythonResponse_status (x : Except (List Char) ProcOut) :
    (pythonResponse x).1 = 200 ∨ (pythonResponse x).1 = 500 := by
  rcases x with e | out
  · right; rfl
  · left
    rw [pythonResponse]
    split_ifs <;> rfl

/-- Witness for C8 on a concrete response: a 200 with body `hi`. -/
theorem c8_content_length_witness :
    send_response 200 "hi".data =
      statusLine 200 ++
        ("Content-Length: ".data ++ natDigits (utf8Len "hi".data) ++ "\r\n".data) ++
        (contentTypeLine 200 "hi".data ++ "\r\n".data) ++ "hi".data ∧
    parseUsize (natDigits (utf8Len "hi".data)) = some (utf8Len "hi".data) :=
  c8_content_length 200 "hi".data (by decide)

/-! ### Claim C1 -/

/-- C1 counterexample: the dispatcher does not route on the prefix
`GET / ` alone.  The request line `GET / HTTP/1.0` starts with `GET / `,
yet the connection is answered 404, not 200, because the code compares
against the full prefix `GET / HTTP/1.1`. -/
theorem c1_counterexample :
    "GET / ".data.isPrefixOf (trim "GET / HTTP/1.0\r\n".data) = true ∧
    handle_connection ⟨"GET / HTTP/1.0\r\n\r\n".data, false⟩ envOk =
      .ok ⟨(404, "Not Found".data), noEffects⟩ := by
  constructor
  · rfl
  · rfl

/-- C1 (amended): the dispatcher routes solely on the trimmed request line,
but on the version-qualified prefixes: a request line starting with
`GET / HTTP/1.1` is answered 200 with the fixed static HTML page (whose
content type is text/html); one starting with `POST /api/interpreter
HTTP/1.1` proceeds to the header/body parsing and interpreter pipeline; every
other request line is answered 404 with a plain-text body. -/
theorem c1_dispatch_routing (s : Stream) (env : Env) (line : List Char)
    (s1 : Stream) (h : readLine s = .ok (line, s1)) :
    (getKey.isPrefixOf (trim line) = true →
      handle_connection s env = .ok ⟨(200, htmlPage), noEffects⟩) ∧
    (getKey.isPrefixOf (trim line) = false →
      postKey.isPrefixOf (trim line) = false →
      handle_connection s env = .ok ⟨(404, "Not Found".data), noEffects⟩) ∧
    (postKey.isPrefixOf (trim line) = true →
      handle_connection s env = interpreterPipeline s1 env) ∧
    contentTypeLine 200 htmlPage = "Content-Type: text/html\r\n".data ∧
    contentTypeLine 404 "Not Found".data = "Content-Type: text/plain\r\n".data := by
  refine ⟨?_, ?_, ?_, by decide, by decide⟩
  · intro hg
    unfold handle_connection
    rw [h]
    simp only [hg, if_true]
  · intro hg hp
    unfold handle_connection
    rw [h]
    simp only [hg, hp, Bool.false_eq_true, if_false]
  · intro hp
    unfold handle_connection
    rw [h]
    simp only [post_not_get hp, hp, Bool.false_eq_true, if_false, if_true]

/-- Witness for C1 on concrete connections: a well-formed GET is answered
200 with the page, an unknown path is answered 404, and a well-formed POST
line hands the connection to the interpreter pipeline. -/
theorem c1_dispatch_routing_witness :
    handle_connection ⟨"GET / HTTP/1.1\r\n\r\n".data, false⟩ envOk =
      .ok ⟨(200, htmlPage), noEffects⟩ ∧
    handle_connection ⟨"GET /missing HTTP/1.1\r\n\r\n".data, false⟩ envOk =
      .ok ⟨(404, "Not Found".data), noEffects⟩ ∧
    handle_connection postStream0 envOk = interpreterPipeline hdrStream0 envOk :=
  ⟨(c1_dispatch_routing ⟨"GET / HTTP/1.1\r\n\r\n".data, false⟩ envOk
      "GET / HTTP/1.1\r\n".data ⟨"\r\n".data, false⟩ rfl).1 rfl,
   (c1_dispatch_routing ⟨"GET /missing HTTP/1.1\r\n\r\n".data, false⟩ envOk
      "GET /missing HTTP/1.1\r\n".data ⟨"\r\n".data, false⟩ rfl).2.1 rfl rfl,
   (c1_dispatch_routing postStream0 envOk postLine hdrStream0 rfl).2.2.1 rfl⟩

/-! ### Claim C6 -/

/-- C6 counterexample: a stream that ends prematurely in the middle of the
request line (no newline ever arrives, then a clean end-of-file) is not
answered 500: `read_line` reports the partial line with Ok, so the partial
request line is routed normally, here to the 200 page. -/
theorem c6_counterexample :
    lineSpan "GET / HTTP/1.1".data = none ∧
    handle_connection ⟨"GET / HTTP/1.1".data, false⟩ envOk =
      .ok ⟨(200, htmlPage), noEffects⟩ := by
  constructor
  · rfl
  · rfl

/-- C6 (amended): a socket read failure while reading the request line, a
read failure inside the header block, and a failed or prematurely ended read
of the declared body are each answered with status 500.  A premature
end-of-file during the request line or the header block is not a read error:
`read_line` returns the partial line with Ok and processing continues. -/
theorem c6_read_failure_500 (s : Stream) (env : Env) (r : HResult)
    (hr : handle_connection s env = .ok r)
    (h : readLine s = .error () ∨
      (∃ line s1, readLine s = .ok (line, s1) ∧
        postKey.isPrefixOf (trim line) = true ∧ readHeaders s1 0 = .error ()) ∨
      (∃ line s1 n s2, readLine s = .ok (line, s1) ∧
        postKey.isPrefixOf (trim line) = true ∧ readHeaders s1 0 = .ok (n, s2) ∧
        0 < n ∧ readExact n s2 = .error ())) :
    r.response.1 = 500 := by
  rcases h with herr | ⟨line, s1, hok, hpost, hhdr⟩ |
    ⟨line, s1, n, s2, hok, hpost, hhdr, hn, hex⟩
  · unfold handle_connection at hr
    rw [herr] at hr
    cases hr
    rfl
  · unfold handle_connection at hr
    rw [hok] at hr
    simp only [post_not_get hpost, hpost, Bool.false_eq_true, if_false, if_true] at hr
    unfold interpreterPipeline at hr
    rw [hhdr] at hr
    cases hr
    rfl
  · unfold handle_connection at hr
    rw [hok] at hr
    simp only [post_not_get hpost, hpost, Bool.false_eq_true, if_false, if_true] at hr
    unfold interpreterPipeline at hr
    simp only [hhdr] at hr
    rw [if_pos hn] at hr
    rw [hex] at hr
    cases hr
    rfl

/-- Witness for C6: a connection whose very first read fails is answered
500. -/
theorem c6_read_failure_500_witness :
    (HResult.mk (500, iseText) noEffects).response.1 = 500 :=
  c6_read_failure_500 ⟨[], true⟩ envOk ⟨(500, iseText), noEffects⟩ rfl (Or.inl rfl)

/-! ### Claim C5 -/

/-- C5: for a POST /api/interpreter request whose reads succeed, the
response status is 400 exactly when the declared content length is zero or
the extractor returns no command, and in these cases no script is written
and no interpreter process is launched. -/
theorem c5_bad_request_iff (s : Stream) (env : Env) (line : List Char)
    (s1 : Stream) (n : Nat) (s2 : Stream) (r : HResult)
    (hline : readLine s = .ok (line, s1))
    (hpost : postKey.isPrefixOf (trim line) = true)
    (hhdr : readHeaders s1 0 = .ok (n, s2))
    (hr : handle_connection s env = .ok r) :
    (r.response.1 = 400 ↔
      n = 0 ∨ ∃ b s3, readExact n s2 = .ok (b, s3) ∧ extract_command b = .ok none) ∧
    ((n = 0 ∨ ∃ b s3, readExact n s2 = .ok (b, s3) ∧ extract_command b = .ok none) →
      r.effects.scriptWritten = none ∧ r.effects.procLaunched = false) := by
  unfold handle_connection at hr
  rw [hline] at hr
  simp only [post_not_get hpost, hpost, Bool.false_eq_true, if_false, if_true] at hr
  unfold interpreterPipeline at hr
  simp only [hhdr] at hr
  by_cases hn : n > 0
  · rw [if_pos hn] at hr
    cases hex : readExact n s2 with
    | error e =>
      rw [hex] at hr
      cases hr
      refine ⟨⟨fun habs => absurd habs (by decide), ?_⟩, ?_⟩
      · rintro (h0 | ⟨b, s3, hb, _⟩)
        · omega
        · cases hb
      · rintro (h0 | ⟨b, s3, hb, _⟩)
        · omega
        · cases hb
    | ok p =>
      obtain ⟨b0, s3'⟩ := p
      simp only [hex] at hr
      cases hcmd : extract_command b0 with
      | error msg =>
        simp only [hcmd] at hr
        cases hr
      | ok cmd? =>
        cases cmd? with
        | none =>
          simp only [hcmd] at hr
          cases hr
          refine ⟨⟨fun _ => Or.inr ⟨b0, s3', rfl, hcmd⟩, fun _ => rfl⟩,
            fun _ => ⟨rfl, rfl⟩⟩
        | some cmd =>
          simp only [hcmd] at hr
          have hst : r.response.1 ≠ 400 := by
            cases hcd : env.createDir with
            | error e => simp only [hcd] at hr; cases hr; decide
            | ok u =>
              simp only [hcd] at hr
              cases hcf : env.createFile with
              | error e => simp only [hcf] at hr; cases hr; decide
              | ok u' =>
                simp only [hcf] at hr
                cases hw : env.writeAll with
                | error e => simp only [hw] at hr; cases hr; decide
                | ok u'' =>
                  simp only [hw] at hr
                  cases hr
                  show (pythonResponse env.runPython).1 ≠ 400
                  rcases pythonResponse_status env.runPython with h2 | h2 <;>
                    rw [h2] <;> decide
          constructor
          · refine ⟨fun h4 => absurd h4 hst, ?_⟩
            rintro (h0 | ⟨b, s3, hb, hbn⟩)
            · omega
            · simp only [Except.ok.injEq, Prod.mk.injEq] at hb
              obtain ⟨rfl, rfl⟩ := hb
              rw [hcmd] at hbn
              cases hbn
          · rintro (h0 | ⟨b, s3, hb, hbn⟩)
            · omega
            · simp only [Except.ok.injEq, Prod.mk.injEq] at hb
              obtain ⟨rfl, rfl⟩ := hb
              rw [hcmd] at hbn
              cases hbn
  · rw [if_neg hn] at hr
    cases hr
    refine ⟨⟨fun _ => Or.inl (by omega), fun _ => rfl⟩, fun _ => ⟨rfl, rfl⟩⟩

/-- Witness for C5: a POST declaring `Content-Length: 0` is answered 400
with no script written and no process launched. -/
theorem c5_bad_request_iff_witness :
    (r400.response.1 = 400 ↔
      0 = 0 ∨ ∃ b s3, readExact 0 emptyStream = .ok (b, s3) ∧
        extract_command b = .ok none) ∧
    ((0 = 0 ∨ ∃ b s3, readExact 0 emptyStream = .ok (b, s3) ∧
        extract_command b = .ok none) →
      r400.effects.scriptWritten = none ∧ r400.effects.procLaunched = false) :=
  c5_bad_request_iff postStream0 envOk postLine hdrStream0 0 emptyStream r400
    rfl rfl rfl rfl

/-! ### Trimming lemmas for symbolic arguments -/

lemma trimStart_of_head {l : List Char} {a : Char} (h : l.head? = some a)
    (ha : isWs a = false) : trimStart l = l := by
  cases l with
  | nil => simp at h
  | cons b bs =>
    rw [List.head?_cons] at h
    obtain rfl : b = a := Option.some.inj h
    rw [trimStart, List.dropWhile_cons_of_neg]
    simp [ha]

lemma trimEnd_of_getLast {l : List Char} {a : Char} (h : l.getLast? = some a)
    (ha : isWs a = false) : trimEnd l = l := by
  rw [trimEnd]
  rw [← List.head?_reverse] at h
  cases hr : l.reverse with
  | nil =>
    rw [hr] at h
    simp at h
  | cons b bs =>
    rw [hr] at h
    rw [List.head?_cons] at h
    obtain rfl : b = a := Option.some.inj h
    rw [List.dropWhile_cons_of_neg (by simp [ha]), ← hr, List.reverse_reverse]

lemma trim_of_ends {l : List Char} {a b : Char} (h1 : l.head? = some a)
    (h2 : l.getLast? = some b) (ha : isWs a = false) (hb : isWs b = false) :
    trim l = l := by
  rw [trim, trimStart_of_head h1 ha, trimEnd_of_getLast h2 hb]

lemma trimStart_append_all {u v : List Char} (h : ∀ c ∈ u, isWs c = true) :
    trimStart (u ++ v) = trimStart v := by
  rw [trimStart, trimStart, List.dropWhile_append_of_pos h]

lemma trimEnd_append_all {u v : List Char} (h : ∀ c ∈ v, isWs c = true) :
    trimEnd (u ++ v) = trimEnd u := by
  rw [trimEnd, trimEnd, List.reverse_append, List.dropWhile_append_of_pos]
  intro a ha
  exact h a (List.mem_reverse.mp ha)

lemma trim_all_ws {l : List Char} (h : ∀ c ∈ l, isWs c = true) : trim l = [] := by
  rw [trim, trimStart]
  rw [List.dropWhile_eq_nil_iff.mpr h]
  rfl

/-! ### Claim C3 -/

/-- C3: the extraction round-trip.  For any string X free of double quotes
and braces, running the extractor on the exact body
open-brace quoted-command-key colon space quote X quote close-brace
returns exactly X. -/
theorem c3_extraction_round_trip (X : List Char)
    (_h : ∀ c ∈ X, c ≠ '"' ∧ c ≠ '{' ∧ c ≠ '}') :
    extract_command ("\x7b\x22command\x22: \x22".data ++ X ++ "\x22\x7d".data) =
      .ok (some X) := by
  have hb : "\x7b\x22command\x22: \x22".data ++ X ++ "\x22\x7d".data =
      ('{' :: (("\x22command\x22: \x22".data ++ X) ++ ['"'])) ++ ['}'] := by
    have e1 : "\x7b\x22command\x22: \x22".data =
        '{' :: "\x22command\x22: \x22".data := rfl
    have e2 : "\x22\x7d".data = ['"', '}'] := rfl
    rw [e1, e2]
    simp
  rw [hb]
  have hlast : (('{' :: (("\x22command\x22: \x22".data ++ X) ++ ['"'])) ++ ['}']).getLast?
      = some '}' := List.getLast?_concat _
  have htrim : trim (('{' :: (("\x22command\x22: \x22".data ++ X) ++ ['"'])) ++ ['}']) =
      ('{' :: (("\x22command\x22: \x22".data ++ X) ++ ['"'])) ++ ['}'] :=
    trim_of_ends (show (('{' :: (("\x22command\x22: \x22".data ++ X) ++ ['"'])) ++
      ['}']).head? = some '{' from rfl) hlast (by decide) (by decide)
  have hinner : chopEnds (('{' :: (("\x22command\x22: \x22".data ++ X) ++ ['"'])) ++ ['}']) =
      ("\x22command\x22: \x22".data ++ X) ++ ['"'] := by
    rw [chopEnds]
    show ((("\x22command\x22: \x22".data ++ X) ++ ['"']) ++ ['}']).dropLast =
      ("\x22command\x22: \x22".data ++ X) ++ ['"']
    exact List.dropLast_concat
  have hinlast : (("\x22command\x22: \x22".data ++ X) ++ ['"']).getLast? = some '"' :=
    List.getLast?_concat _
  have htrimin : trim (("\x22command\x22: \x22".data ++ X) ++ ['"']) =
      ("\x22command\x22: \x22".data ++ X) ++ ['"'] :=
    trim_of_ends (show (("\x22command\x22: \x22".data ++ X) ++ ['"']).head? =
      some '"' from rfl) hinlast (by decide) (by decide)
  have hkey : cmdKey.isPrefixOf (("\x22command\x22: \x22".data ++ X) ++ ['"']) = true := rfl
  have hfac : findAfterColon (("\x22command\x22: \x22".data ++ X) ++ ['"']) =
      some ((" \x22".data ++ X) ++ ['"']) := rfl
  have hvlast : ((" \x22".data ++ X) ++ ['"']).getLast? = some '"' :=
    List.getLast?_concat _
  have hvs : trimStart ((" \x22".data ++ X) ++ ['"']) = ("\x22".data ++ X) ++ ['"'] := rfl
  have hvlast2 : (("\x22".data ++ X) ++ ['"']).getLast? = some '"' :=
    List.getLast?_concat _
  have hvtrim : trim ((" \x22".data ++ X) ++ ['"']) = ("\x22".data ++ X) ++ ['"'] := by
    rw [trim, hvs, trimEnd_of_getLast hvlast2 (by decide)]
  have hvlen : (("\x22".data ++ X) ++ ['"']).length = X.length + 2 := by
    simp
  have hvchop : chopEnds (("\x22".data ++ X) ++ ['"']) = X := by
    rw [chopEnds]
    have e3 : ("\x22".data ++ X) ++ ['"'] = '"' :: (X ++ ['"']) := by simp
    rw [e3]
    show (X ++ ['"']).dropLast = X
    exact List.dropLast_concat
  rw [extract_command]
  simp only [htrim]
  rw [if_pos ⟨rfl, hlast⟩]
  simp only [hinner, htrimin]
  rw [if_pos hkey]
  simp only [hfac, hvtrim]
  rw [if_pos ⟨rfl, hvlast2⟩]
  rw [hvlen]
  rw [if_neg (by omega)]
  rw [hvchop]

/-- Witness for C3 at a concrete command string. -/
theorem c3_extraction_round_trip_witness :
    extract_command ("\x7b\x22command\x22: \x22".data ++ "print(1+1)".data ++
      "\x22\x7d".data) = .ok (some "print(1+1)".data) :=
  c3_extraction_round_trip "print(1+1)".data (by decide)

/-! ### Claim C10 -/

/-- C10 (implicit): a body whose interior after the key is empty or all
whitespace yields the empty command rather than the no-command result, so
the request is not rejected with 400: the dispatcher writes an empty script
and launches the interpreter on it. -/
theorem c10_empty_command (w : List Char) (hw : ∀ c ∈ w, isWs c = true) :
    extract_command (("\x7b\x22command\x22:".data ++ w) ++ ['}']) = .ok (some []) ∧
    handle_connection
      ⟨("POST /api/interpreter HTTP/1.1\r\nContent-Length: 13\r\n\r\n" ++
        "\x7b\x22command\x22: \x7d").data, false⟩ envOk =
      .ok ⟨(200, []), ⟨true, true, some [], true⟩⟩ := by
  constructor
  · have hlast : (("\x7b\x22command\x22:".data ++ w) ++ ['}']).getLast? = some '}' :=
      List.getLast?_concat _
    have htrim : trim (("\x7b\x22command\x22:".data ++ w) ++ ['}']) =
        ("\x7b\x22command\x22:".data ++ w) ++ ['}'] :=
      trim_of_ends (show (("\x7b\x22command\x22:".data ++ w) ++ ['}']).head? =
        some '{' from rfl) hlast (by decide) (by decide)
    have hinner : chopEnds (("\x7b\x22command\x22:".data ++ w) ++ ['}']) =
        cmdKey ++ w := by
      rw [chopEnds]
      show ((cmdKey ++ w) ++ ['}']).dropLast = cmdKey ++ w
      exact List.dropLast_concat
    have htrimin : trim (cmdKey ++ w) = cmdKey := by
      rw [trim, trimStart_of_head (show (cmdKey ++ w).head? = some '"' from rfl)
        (by decide), trimEnd_append_all hw]
      rfl
    have hfac : findAfterColon (cmdKey ++ w) = some w := rfl
    have hvtrim : trim w = [] := trim_all_ws hw
    rw [extract_command]
    simp only [htrim]
    rw [if_pos ⟨rfl, hlast⟩]
    simp only [hinner, htrimin]
    rw [if_pos (by rfl)]
    simp only [hfac, hvtrim]
    rw [if_neg (by simp)]
  · rfl

/-! ### Header-loop lemmas for claim C7 -/

lemma lineSpan_append {p r : List Char} (hp : '\n' ∉ p) :
    lineSpan (p ++ '\n' :: r) = some (p ++ ['\n'], r) := by
  induction p with
  | nil => simp [lineSpan]
  | cons c cs ih =>
    rw [List.cons_append, lineSpan]
    have hc : c ≠ '\n' := fun hc => hp (hc ▸ List.mem_cons_self c cs)
    rw [if_neg hc, ih (fun hm => hp (List.mem_cons_of_mem c hm))]
    simp

lemma untilColon_no_colon {l : List Char} (h : ∀ c ∈ l, c ≠ ':') :
    untilColon l = l := by
  induction l with
  | nil => rfl
  | cons c rest ih =>
    rw [untilColon, if_neg (h c (List.mem_cons_self c rest)),
      ih (fun c' hc' => h c' (List.mem_cons_of_mem c hc'))]

lemma not_ws_of_digit {c : Char} (h : isDigitC c = true) : isWs c = false := by
  have h1 : c ≠ ' ' := by intro heq; subst heq; exact absurd h (by decide)
  have h2 : c ≠ '\t' := by intro heq; subst heq; exact absurd h (by decide)
  have h3 : c ≠ '\n' := by intro heq; subst heq; exact absurd h (by decide)
  have h4 : c ≠ '\r' := by intro heq; subst heq; exact absurd h (by decide)
  rw [isWs]
  simp [h1, h2, h3, h4]

lemma trim_ne_nil_of_head {l : List Char} {c : Char} (h : l.head? = some c)
    (hc : isWs c = false) : trim l ≠ [] := by
  rw [trim, trimStart_of_head h hc]
  intro he
  rw [trimEnd, List.reverse_eq_nil_iff] at he
  have hall := List.dropWhile_eq_nil_iff.mp he
  cases l with
  | nil => simp at h
  | cons b bs =>
    rw [List.head?_cons] at h
    have hb : b = c := Option.some.inj h
    have hmem : b ∈ (b :: bs).reverse := by simp
    have h5 := hall b hmem
    rw [hb] at h5
    rw [h5] at hc
    cases hc

lemma rhAux_lineSpan_some (data : List Char) :
    ∀ (l rest : List Char) (e : Bool) (acc : List Char) (cl : Nat),
      lineSpan data = some (l, rest) →
      rhAux data e acc cl =
        (if trim (acc ++ l) = [] then .ok (cl, ⟨rest, e⟩)
         else rhAux rest e []
           (if clKey.isPrefixOf (lowerChars (acc ++ l)) then parseCLVal (acc ++ l)
            else cl)) := by
  induction data with
  | nil =>
    intro l rest e acc cl h
    rw [lineSpan] at h
    cases h
  | cons c rest' ih =>
    intro l rest e acc cl h
    rw [lineSpan] at h
    by_cases hc : c = '\n'
    · subst hc
      rw [if_pos rfl] at h
      injection h with h2
      injection h2 with h3 h4
      subst h3
      subst h4
      rw [rhAux, if_pos rfl]
    · rw [if_neg hc] at h
      cases hls : lineSpan rest' with
      | none =>
        simp only [hls] at h
        cases h
      | some p =>
        obtain ⟨l2, r2⟩ := p
        simp only [hls] at h
        injection h with h2
        injection h2 with h3 h4
        subst h3
        subst h4
        rw [rhAux, if_neg hc, ih l2 r2 e (acc ++ [c]) cl hls]
        have hassoc : (acc ++ [c]) ++ l2 = acc ++ (c :: l2) := by simp
        rw [hassoc]

lemma rhAux_lineSpan_none_err (data : List Char) :
    ∀ (acc : List Char) (cl : Nat), lineSpan data = none →
      rhAux data true acc cl = .error () := by
  induction data with
  | nil => intro acc cl _; rfl
  | cons c rest ih =>
    intro acc cl h
    rw [lineSpan] at h
    by_cases hc : c = '\n'
    · subst hc
      rw [if_pos rfl] at h
      cases h
    · rw [if_neg hc] at h
      cases hls : lineSpan rest with
      | some p =>
        obtain ⟨l2, r2⟩ := p
        simp only [hls] at h
        cases h
      | none =>
        rw [rhAux, if_neg hc]
        exact ih (acc ++ [c]) cl hls

lemma rhAux_lineSpan_none_eof (data : List Char) :
    ∀ (acc : List Char) (cl : Nat), lineSpan data = none →
      rhAux data false acc cl =
        (if trim (acc ++ data) = [] then .ok (cl, ⟨[], false⟩)
         else .ok ((if clKey.isPrefixOf (lowerChars (acc ++ data)) then
           parseCLVal (acc ++ data) else cl), ⟨[], false⟩)) := by
  induction data with
  | nil =>
    intro acc cl _
    rw [rhAux]
    simp
  | cons c rest ih =>
    intro acc cl h
    rw [lineSpan] at h
    by_cases hc : c = '\n'
    · subst hc
      rw [if_pos rfl] at h
      cases h
    · rw [if_neg hc] at h
      cases hls : lineSpan rest with
      | some p =>
        obtain ⟨l2, r2⟩ := p
        simp only [hls] at h
        cases h
      | none =>
        rw [rhAux, if_neg hc, ih (acc ++ [c]) cl hls]
        have hassoc : (acc ++ [c]) ++ rest = acc ++ (c :: rest) := by simp
        rw [hassoc]

lemma readHeaders_step {s : Stream} {line : List Char} {s' : Stream} (cl : Nat)
    (h : readLine s = .ok (line, s')) :
    readHeaders s cl =
      (if trim line = [] then .ok (cl, s')
       else readHeaders s'
         (if clKey.isPrefixOf (lowerChars line) then parseCLVal line else cl)) := by
  rw [readLine] at h
  cases hls : lineSpan s.data with
  | some p =>
    obtain ⟨l, rest⟩ := p
    simp only [hls] at h
    injection h with h2
    injection h2 with h3 h4
    subst h3
    subst h4
    rw [readHeaders, rhAux_lineSpan_some s.data l rest s.errAfter [] cl hls]
    simp only [List.nil_append]
    rfl
  | none =>
    simp only [hls] at h
    by_cases he : s.errAfter = true
    · rw [if_pos he] at h
      cases h
    · rw [if_neg he] at h
      injection h with h2
      injection h2 with h3 h4
      subst h3
      subst h4
      have he' : s.errAfter = false := by
        cases hb : s.errAfter
        · rfl
        · exact absurd hb he
      rw [readHeaders, he', rhAux_lineSpan_none_eof s.data [] cl hls]
      simp only [List.nil_append]
      by_cases ht : trim s.data = []
      · rw [if_pos ht, if_pos ht]
      · rw [if_neg ht, if_neg ht]
        rfl

lemma readHeaders_step_err {s : Stream} (cl : Nat) (h : readLine s = .error ()) :
    readHeaders s cl = .error () := by
  rw [readLine] at h
  cases hls : lineSpan s.data with
  | some p =>
    obtain ⟨l, rest⟩ := p
    simp only [hls] at h
    cases h
  | none =>
    simp only [hls] at h
    by_cases he : s.errAfter = true
    · rw [readHeaders, he]
      exact rhAux_lineSpan_none_err s.data [] cl hls
    · rw [if_neg he] at h
      cases h

lemma readHeaders_clLine (x : Nat) (hx : x ≤ USIZE_MAX) (T : List Char) (cl : Nat) :
    readHeaders ⟨("Content-Length: ".data ++ natDigits x ++ "\r\n".data) ++ T, false⟩ cl =
      readHeaders ⟨T, false⟩ x := by
  obtain ⟨d, t, hd⟩ : ∃ d t, natDigits x = d :: t := by
    cases hl : natDigits x with
    | nil => exact absurd hl (natDigits_ne_nil x)
    | cons d t => exact ⟨d, t, rfl⟩
  have hdd : isDigitC d = true := natDigits_all x d (hd ▸ List.mem_cons_self d t)
  have hnd : ∀ c ∈ natDigits x, c ≠ '\n' := by
    intro c hm heq
    subst heq
    exact absurd (natDigits_all x _ hm) (by decide)
  have hp : ('\n' : Char) ∉ ("Content-Length: ".data ++ natDigits x) ++ ['\r'] := by
    intro hm
    rcases List.mem_append.mp hm with hm1 | hm2
    · rcases List.mem_append.mp hm1 with hm3 | hm4
      · exact absurd hm3 (by decide)
      · exact hnd _ hm4 rfl
    · rw [List.mem_singleton] at hm2
      exact absurd hm2 (by decide)
  have hshape : ("Content-Length: ".data ++ natDigits x ++ "\r\n".data) ++ T =
      (("Content-Length: ".data ++ natDigits x) ++ ['\r']) ++ ('\n' :: T) := by
    simp
  have hlineeq : (("Content-Length: ".data ++ natDigits x) ++ ['\r']) ++ ['\n'] =
      "Content-Length: ".data ++ natDigits x ++ "\r\n".data := by
    simp
  have hls : lineSpan (("Content-Length: ".data ++ natDigits x ++ "\r\n".data) ++ T) =
      some ("Content-Length: ".data ++ natDigits x ++ "\r\n".data, T) := by
    rw [hshape, lineSpan_append hp, hlineeq]
  have hrl : readLine ⟨("Content-Length: ".data ++ natDigits x ++ "\r\n".data) ++ T, false⟩ =
      .ok ("Content-Length: ".data ++ natDigits x ++ "\r\n".data, ⟨T, false⟩) := by
    rw [readLine]
    simp only [hls]
  have hline_ne : trim ("Content-Length: ".data ++ natDigits x ++ "\r\n".data) ≠ [] :=
    trim_ne_nil_of_head
      (show ("Content-Length: ".data ++ natDigits x ++ "\r\n".data).head? = some 'C'
        from rfl) (by decide)
  have hpre : clKey.isPrefixOf
      (lowerChars ("Content-Length: ".data ++ natDigits x ++ "\r\n".data)) = true := by
    have e1 : lowerChars ("Content-Length: ".data ++ natDigits x ++ "\r\n".data) =
        ("content-length: ".data ++ lowerChars (natDigits x)) ++ lowerChars "\r\n".data := by
      rw [lowerChars, List.map_append, List.map_append]
      rfl
    rw [e1]
    rfl
  have hfac : findAfterColon ("Content-Length: ".data ++ natDigits x ++ "\r\n".data) =
      some ((" ".data ++ natDigits x) ++ "\r\n".data) := rfl
  have hnc : ∀ c ∈ (" ".data ++ natDigits x) ++ "\r\n".data, c ≠ ':' := by
    intro c hm
    rcases List.mem_append.mp hm with hm1 | hm2
    · rcases List.mem_append.mp hm1 with hm3 | hm4
      · rw [List.mem_singleton] at hm3
        subst hm3
        decide
      · intro heq
        subst heq
        exact absurd (natDigits_all x _ hm4) (by decide)
    · intro heq
      subst heq
      exact absurd hm2 (by decide)
  have hh : (natDigits x ++ "\r\n".data).head? = some d := by
    rw [hd]
    rfl
  have htrimv : trim ((" ".data ++ natDigits x) ++ "\r\n".data) = natDigits x := by
    have h1 : (" ".data ++ natDigits x) ++ "\r\n".data =
        " ".data ++ (natDigits x ++ "\r\n".data) := by simp
    rw [trim, h1, trimStart_append_all (by decide),
      trimStart_of_head hh (not_ws_of_digit hdd),
      trimEnd_append_all (by decide)]
    obtain ⟨y, hy1, hy2⟩ : ∃ y, (natDigits x).getLast? = some y ∧ isDigitC y = true := by
      cases hg : (natDigits x).getLast? with
      | none =>
        rw [List.getLast?_eq_none_iff] at hg
        exact absurd hg (natDigits_ne_nil x)
      | some y => exact ⟨y, rfl, natDigits_all x y (List.mem_of_getLast?_eq_some hg)⟩
    exact trimEnd_of_getLast hy1 (not_ws_of_digit hy2)
  have hpcv : parseCLVal ("Content-Length: ".data ++ natDigits x ++ "\r\n".data) = x := by
    have h2 : parseCLVal ("Content-Length: ".data ++ natDigits x ++ "\r\n".data) =
        (parseUsize (trim (untilColon ((" ".data ++ natDigits x) ++ "\r\n".data)))).getD 0 := by
      rw [parseCLVal]
      simp only [hfac]
    rw [h2, untilColon_no_colon hnc, htrimv, parseUsize_natDigits hx]
    rfl
  rw [readHeaders_step cl hrl, if_neg hline_ne, hpre, if_pos rfl, hpcv]

/-! ### Claim C7 -/

/-- C7 counterexample: header parsing does not parse "the remainder" of a
content-length line.  On the line `Content-Length: 5:junk` the remainder
after the matched prefix is ` 5:junk`, whose integer parse fails — so the
claim's defaulting rule would yield 0 — yet the loop takes only the text
between the first and second colon and produces 5. -/
theorem c7_counterexample :
    readHeaders ⟨"Content-Length: 5:junk\r\n\r\n".data, false⟩ 0 =
      .ok (5, ⟨[], false⟩) ∧
    parseUsize (trim " 5:junk".data) = none := by
  constructor
  · rfl
  · rfl

/-- C7 (amended): the header loop reads lines until one trims to empty (that
line's remaining stream is where the loop stops); a failing line read makes
the whole phase fail; a line whose lowercasing does not start with
`content-length:` leaves the value unchanged; a line whose lowercasing does
start with `content-length:` replaces the value — so the last matching
header wins — with the trimmed text between the first and second colon
parsed as an unsigned integer, parse failure defaulting to 0, never failing.
The final conjunct exhibits last-write-wins on two well-formed
content-length headers. -/
theorem c7_header_parsing :
    (∀ (s : Stream) (cl : Nat), readLine s = .error () →
      readHeaders s cl = .error ()) ∧
    (∀ (s s' : Stream) (cl : Nat) (line : List Char),
      readLine s = .ok (line, s') → trim line = [] →
      readHeaders s cl = .ok (cl, s')) ∧
    (∀ (s s' : Stream) (cl : Nat) (line : List Char),
      readLine s = .ok (line, s') → trim line ≠ [] →
      clKey.isPrefixOf (lowerChars line) = false →
      readHeaders s cl = readHeaders s' cl) ∧
    (∀ (s s' : Stream) (cl : Nat) (line rest : List Char),
      readLine s = .ok (line, s') → trim line ≠ [] →
      clKey.isPrefixOf (lowerChars line) = true →
      findAfterColon line = some rest →
      readHeaders s cl =
        readHeaders s' ((parseUsize (trim (untilColon rest))).getD 0)) ∧
    (∀ a b : Nat, a ≤ USIZE_MAX → b ≤ USIZE_MAX →
      readHeaders ⟨("Content-Length: ".data ++ natDigits a ++ "\r\n".data) ++
        (("Content-Length: ".data ++ natDigits b ++ "\r\n".data) ++ "\r\n".data),
        false⟩ 0 = .ok (b, ⟨[], false⟩)) := by
  refine ⟨?_, ?_, ?_, ?_, ?_⟩
  · intro s cl h
    exact readHeaders_step_err cl h
  · intro s s' cl line h hb
    rw [readHeaders_step cl h, if_pos hb]
  · intro s s' cl line h hb hk
    rw [readHeaders_step cl h, if_neg hb, hk]
    simp
  · intro s s' cl line rest h hb hk hfa
    rw [readHeaders_step cl h, if_neg hb, hk, if_pos rfl]
    have hpcv : parseCLVal line = (parseUsize (trim (untilColon rest))).getD 0 := by
      rw [parseCLVal]
      simp only [hfa]
    rw [hpcv]
  · intro a b ha hb
    rw [readHeaders_clLine a ha, readHeaders_clLine b hb,
      readHeaders_step b (show readLine ⟨"\r\n".data, false⟩ =
        .ok ("\r\n".data, ⟨[], false⟩) from rfl),
      if_pos (by decide : trim "\r\n".data = [])]

/-- Witness for C7: concrete header blocks — a non-matching header is
skipped, a blank line ends the block, a matching header takes the text
between the colons, a failing first read fails the phase, and of two
content-length headers the second wins. -/
theorem c7_header_parsing_witness :
    readHeaders ⟨"X-Foo: 1\r\n\r\nrest".data, false⟩ 7 =
      readHeaders ⟨"\r\nrest".data, false⟩ 7 ∧
    readHeaders ⟨"\r\nrest".data, false⟩ 7 = .ok (7, ⟨"rest".data, false⟩) ∧
    readHeaders ⟨"Content-Length: 42\r\n\r\n".data, false⟩ 0 =
      readHeaders ⟨"\r\n".data, false⟩
        ((parseUsize (trim (untilColon " 42\r\n".data))).getD 0) ∧
    readHeaders ⟨[], true⟩ 3 = .error () ∧
    readHeaders ⟨("Content-Length: ".data ++ natDigits 5 ++ "\r\n".data) ++
      (("Content-Length: ".data ++ natDigits 7 ++ "\r\n".data) ++ "\r\n".data),
      false⟩ 0 = .ok (7, ⟨[], false⟩) :=
  ⟨c7_header_parsing.2.2.1 ⟨"X-Foo: 1\r\n\r\nrest".data, false⟩
      ⟨"\r\nrest".data, false⟩ 7 "X-Foo: 1\r\n".data rfl (by decide) rfl,
   c7_header_parsing.2.1 ⟨"\r\nrest".data, false⟩ ⟨"rest".data, false⟩ 7
      "\r\n".data rfl (by decide),
   c7_header_parsing.2.2.2.1 ⟨"Content-Length: 42\r\n\r\n".data, false⟩
      ⟨"\r\n".data, false⟩ 0 "Content-Length: 42\r\n".data " 42\r\n".data
      rfl (by decide) rfl rfl,
   c7_header_parsing.1 ⟨[], true⟩ 3 rfl,
   c7_header_parsing.2.2.2.2 5 7 (by decide) (by decide)⟩

/-- Witness for C10 with a one-space interior. -/
theorem c10_empty_command_witness :
    extract_command (("\x7b\x22command\x22:".data ++ [' ']) ++ ['}']) = .ok (some []) ∧
    handle_connection
      ⟨("POST /api/interpreter HTTP/1.1\r\nContent-Length: 13\r\n\r\n" ++
        "\x7b\x22command\x22: \x7d").data, false⟩ envOk =
      .ok ⟨(200, []), ⟨true, true, some [], true⟩⟩ :=
  c10_empty_command [' '] (by decide)

end FPB
